import Mathlib

/-!
Shallow embedding of the mindsculpt memory core
(src/types/memory.types.ts, src/services/promptBuilder.ts,
src/services/ClassificationService.ts).

Modelling conventions:
* JavaScript numbers are modelled as rationals (ℚ).  Where `NaN` matters
  (the similarity path, where `parseFloat` can return `NaN` and `Math.min` /
  `Math.max` propagate it) a JS number is modelled as `Option ℚ` with `none`
  standing for `NaN`.
* The `Map<string, Memory>` backing `MemoryManager` is modelled as a list of
  records in insertion order; `Map.get` is `find?` on the id, `Map.set`
  replaces in place when the key is present and appends otherwise.
* Asynchronous effects (persistence saves, event emission, the LLM transport)
  do not affect the in-memory state transitions the claims are about; the
  transport is modelled by passing its outcome (response text or failure) as
  an explicit argument.  Generated ids and timestamps (`Date.now()`,
  `Math.random()`) are passed as explicit arguments.
* The open extension maps (`[key: string]: any` on `context`, `metadata`)
  carry no logic in the source and are not modelled.
-/

namespace Mindsculpt

/-- `conversation` field of `Memory` (memory.types.ts). -/
structure Conversation where
  agent_messages : List String
  user_messages : List String
  deriving DecidableEq

/-- `context` field of `Memory` (memory.types.ts); the open extension map is
not modelled. -/
structure MContext where
  focus_area : String
  user_state : String
  scene_details : String
  interaction_type : String
  deriving DecidableEq

/-- The `Memory` record (memory.types.ts); `metadata` is not modelled. -/
structure Memory where
  id : String
  text : String
  glimpse_id : String
  observation : String
  conversation : Conversation
  context : MContext
  importance : ℚ
  emotion_score : ℚ
  linked_memories : List String
  created_at : ℚ
  last_accessed : Option ℚ
  deriving DecidableEq

/-- The in-memory `Map<string, Memory>` of `MemoryManager`, in insertion
order. -/
abbrev Store := List Memory

/-- `this.memories.get(id)`. -/
def getMem (s : Store) (id : String) : Option Memory :=
  s.find? (fun m => m.id == id)

/-- `this.memories.set(m.id, m)`: replace in place when the key is present,
append otherwise. -/
def setMem (s : Store) (m : Memory) : Store :=
  if s.any (fun x => x.id == m.id) then
    s.map (fun x => if x.id == m.id then m else x)
  else
    s ++ [m]

/-- The argument of `createMemory`: `Omit<Memory, 'id' | 'created_at' |
'glimpse_id'>`.  The fields the source guards with `||` fallbacks are
`Option`s (`none` = the JS value was absent/undefined). -/
structure MemoryDraft where
  text : String
  observation : Option String
  conversation : Option Conversation
  context : MContext
  importance : ℚ
  emotion_score : ℚ
  linked_memories : Option (List String)
  last_accessed : Option ℚ
  deriving DecidableEq

/-- `MemoryManager.createMemory`.  The generated id, glimpse id and
`Date.now()` timestamp are explicit arguments.  Returns the new store and
the created record. -/
def createMemory (s : Store) (draft : MemoryDraft) (genId genGlimpse : String)
    (now : ℚ) : Store × Memory :=
  let newMemory : Memory := {
    id := genId
    text := draft.text
    glimpse_id := genGlimpse
    observation := draft.observation.getD ""
    conversation := draft.conversation.getD ⟨[], []⟩
    context := draft.context
    importance := draft.importance
    emotion_score := draft.emotion_score
    linked_memories := draft.linked_memories.getD []
    created_at := now
    last_accessed := draft.last_accessed }
  (setMem s newMemory, newMemory)

/-- `Partial<Memory>`: every field optional (`none` = key absent). -/
structure PartialMemory where
  id : Option String := none
  text : Option String := none
  glimpse_id : Option String := none
  observation : Option String := none
  conversation : Option Conversation := none
  context : Option MContext := none
  importance : Option ℚ := none
  emotion_score : Option ℚ := none
  linked_memories : Option (List String) := none
  created_at : Option ℚ := none
  last_accessed : Option ℚ := none
  deriving DecidableEq

/-- `{ ...memory, ...updates, id, created_at: memory.created_at, glimpse_id:
memory.glimpse_id }`: spread of the partial over the record, then the three
immutable fields forcibly restored. -/
def mergeMemory (m : Memory) (p : PartialMemory) (id : String) : Memory :=
  { id := id
    text := p.text.getD m.text
    glimpse_id := m.glimpse_id
    observation := p.observation.getD m.observation
    conversation := p.conversation.getD m.conversation
    context := p.context.getD m.context
    importance := p.importance.getD m.importance
    emotion_score := p.emotion_score.getD m.emotion_score
    linked_memories := p.linked_memories.getD m.linked_memories
    created_at := m.created_at
    last_accessed := match p.last_accessed with
      | some v => some v
      | none => m.last_accessed }

/-- `MemoryManager.updateMemory`: NotFound when the id is absent, otherwise
merge and store. -/
def updateMemory (s : Store) (id : String) (p : PartialMemory) :
    Except String (Store × Memory) :=
  match getMem s id with
  | none => .error ("Memory with id " ++ id ++ " not found")
  | some m =>
    let updated := mergeMemory m p id
    .ok (setMem s updated, updated)

/-- The cascade step of `deleteMemory`: drop `id` from a record's link set
(`linked_memories.filter(linkId => linkId !== id)`). -/
def removeLinksTo (id : String) (m : Memory) : Memory :=
  { m with linked_memories := m.linked_memories.filter (fun l => l != id) }

/-- `MemoryManager.deleteMemory`: NotFound when absent; otherwise remove the
node, then remove its id from every remaining node's link set. -/
def deleteMemory (s : Store) (id : String) : Except String Store :=
  match getMem s id with
  | none => .error ("Memory with id " ++ id ++ " not found")
  | some _ => .ok (((s.filter (fun m => m.id != id))).map (removeLinksTo id))

/-- One direction of `linkMemories`: push `tid` onto `m`'s link set unless
already present. -/
def pushLink (m : Memory) (tid : String) : Memory :=
  if tid ∈ m.linked_memories then m
  else { m with linked_memories := m.linked_memories ++ [tid] }

/-- Apply `pushLink · tid` to the store entry (or entries) whose id is
`srcId`; in the source this is an in-place mutation of the record object
obtained from the map. -/
def linkStep (s : Store) (srcId tid : String) : Store :=
  s.map (fun m => if m.id = srcId then pushLink m tid else m)

/-- `MemoryManager.linkMemories`.  The two pushes are sequential on the live
state, which captures the source's aliasing when `sourceId = targetId` (the
two `get` results are the same object). -/
def linkMemories (s : Store) (sourceId targetId : String) :
    Except String Store :=
  match getMem s sourceId, getMem s targetId with
  | some _, some _ =>
    .ok (linkStep (linkStep s sourceId targetId) targetId sourceId)
  | _, _ => .error "One or both memories not found"

/-! ## Search engine (`MemoryManager.searchMemories`) -/

/-- Does `hay` start with `needle`? -/
def strStartsWith : List Char → List Char → Bool
  | _, [] => true
  | [], _ :: _ => false
  | c :: cs, d :: ds => c == d && strStartsWith cs ds

/-- Substring containment on character lists. -/
def strContains : List Char → List Char → Bool
  | [], needle => needle.isEmpty
  | c :: t, needle => strStartsWith (c :: t) needle || strContains t needle

/-- `String.prototype.includes`. -/
def jsIncludes (s sub : String) : Bool := strContains s.toList sub.toList

/-- The free-text predicate of `searchMemories`; `q` is the already
lower-cased query.  `memory.observation && ...` short-circuits on the empty
(falsy) string. -/
def queryMatch (q : String) (m : Memory) : Bool :=
  jsIncludes m.text.toLower q ||
  jsIncludes m.context.focus_area.toLower q ||
  (m.observation != "" && jsIncludes m.observation.toLower q)

/-- `MemorySearchParams` (memory.types.ts).  `limit` is modelled as a
natural number (the source always passes non-negative integer limits);
the `personality` override field only matters to `buildPrompt` and is
resolved there, so it is not carried here. -/
structure MemorySearchParams where
  query : Option String := none
  importance_threshold : Option ℚ := none
  emotion_threshold : Option ℚ := none
  focus_area : Option String := none
  limit : Option Nat := none
  from_date : Option ℚ := none
  to_date : Option ℚ := none
  memories : Option (List Memory) := none

/-- `if (params.query) { ... }`: the empty string is falsy, so an empty
query applies no filter. -/
def queryStage (o : Option String) (l : List Memory) : List Memory :=
  match o with
  | some q => if q = "" then l else l.filter (queryMatch q.toLower)
  | none => l

/-- `if (params.x !== undefined) results.filter(m => f(m) >= t)`, used for
both the importance and the emotion thresholds. -/
def floorStage (o : Option ℚ) (f : Memory → ℚ) (l : List Memory) :
    List Memory :=
  match o with
  | some t => l.filter (fun m => decide (t ≤ f m))
  | none => l

/-- `if (params.focus_area) { ... }` (truthiness: empty string skips). -/
def focusStage (o : Option String) (l : List Memory) : List Memory :=
  match o with
  | some f => if f = "" then l else
      l.filter (fun m => m.context.focus_area == f)
  | none => l

/-- `if (params.from_date) { ... }` (truthiness: `0` skips). -/
def fromStage (o : Option ℚ) (l : List Memory) : List Memory :=
  match o with
  | some d => if d = 0 then l else
      l.filter (fun m => decide (d ≤ m.created_at))
  | none => l

/-- `if (params.to_date) { ... }` (truthiness: `0` skips). -/
def toStage (o : Option ℚ) (l : List Memory) : List Memory :=
  match o with
  | some d => if d = 0 then l else
      l.filter (fun m => decide (m.created_at ≤ d))
  | none => l

/-- The filter pipeline of `searchMemories`, in source order, over
`params.memories || Array.from(this.memories.values())`. -/
def applyFilters (store : List Memory) (p : MemorySearchParams) :
    List Memory :=
  toStage p.to_date
    (fromStage p.from_date
      (focusStage p.focus_area
        (floorStage p.emotion_threshold Memory.emotion_score
          (floorStage p.importance_threshold Memory.importance
            (queryStage p.query (p.memories.getD store))))))

/-- The order the comparator `(a, b) => b.importance - a.importance`
establishes: `a` precedes `b` when `b.importance ≤ a.importance`. -/
def impGe (a b : Memory) : Prop := b.importance ≤ a.importance

instance : DecidableRel impGe := fun a b =>
  inferInstanceAs (Decidable (b.importance ≤ a.importance))

instance : IsTotal Memory impGe :=
  ⟨fun a b => le_total b.importance a.importance⟩

instance : IsTrans Memory impGe :=
  ⟨fun _ _ _ hab hbc => le_trans hbc hab⟩

/-- `results.sort((a, b) => b.importance - a.importance)`.  ECMAScript
requires `Array.prototype.sort` to be stable, and a stable sort for a given
total preorder is unique, so the insertion sort below produces exactly the
source's result. -/
def sortByImportanceDesc (l : List Memory) : List Memory :=
  l.insertionSort impGe

/-- `MemoryManager.searchMemories`: filter, stable descending sort, then
`if (params.limit) results.slice(0, limit)` — truthiness, so a limit of `0`
performs no truncation. -/
def searchMemories (store : List Memory) (p : MemorySearchParams) :
    List Memory :=
  let sorted := sortByImportanceDesc (applyFilters store p)
  match p.limit with
  | some n => if n = 0 then sorted else sorted.take n
  | none => sorted

/-! ## Classification normalizer (`ClassificationService`) -/

/-- The parsed JSON object of a completion response, decoded field by field.
`none` means the field is absent or not of the consumed shape (e.g.
`suggested_links` is `none` whenever `Array.isArray` is false). -/
structure RawResult where
  observation : Option String := none
  user_state : Option String := none
  scene_details : Option String := none
  importance : Option ℚ := none
  emotion_score : Option ℚ := none
  focus_area : Option String := none
  interaction_type : Option String := none
  suggested_links : Option (List String) := none
  deriving DecidableEq

/-- `x || d` for a JS string field: absent and the empty string are falsy. -/
def strOr (o : Option String) (d : String) : String :=
  match o with
  | some s => if s = "" then d else s
  | none => d

/-- `x || d` for a JS number field: absent and `0` are falsy. -/
def numOr (o : Option ℚ) (d : ℚ) : ℚ :=
  match o with
  | some v => if v = 0 then d else v
  | none => d

/-- `ClassificationService.clamp`: `Math.max(min, Math.min(max, value))`. -/
def clamp (value lo hi : ℚ) : ℚ := max lo (min hi value)

/-- `NarrativeClassification` (ClassificationService.ts): the
`MemoryClassification` fields plus the narrative fields. -/
structure NarrativeClassification where
  observation : String
  user_state : Option String := none
  scene_details : Option String := none
  importance : ℚ
  emotion_score : ℚ
  focus_area : String
  interaction_type : String
  suggested_links : List String
  deriving DecidableEq

/-- The field-by-field defence of `classifyWithLLM`'s success path. -/
def normalizeResult (r : RawResult) : NarrativeClassification :=
  { observation := strOr r.observation "User and AI engaged in conversation."
    user_state := some (strOr r.user_state "Neutral, engaging in conversation")
    scene_details := some (strOr r.scene_details
      "The interaction is at an early stage, with no specific context established yet.")
    importance := clamp (numOr r.importance (1/2)) 0 1
    emotion_score := clamp (numOr r.emotion_score 0) (-1) 1
    focus_area := strOr r.focus_area "general"
    interaction_type := strOr r.interaction_type "general"
    suggested_links := r.suggested_links.getD [] }

/-- `ClassificationService.getDefaultClassification`. -/
def getDefaultClassification : NarrativeClassification :=
  { observation := ""
    user_state := none
    scene_details := none
    importance := 1/2
    emotion_score := 0
    focus_area := "general"
    interaction_type := "general"
    suggested_links := [] }

/-- The observable outcome of the completion call plus `JSON.parse` and the
field accesses: `failure` covers a transport failure, unparseable text, and
field access throwing (e.g. the response parsing to `null`). -/
inductive ClassifyOutcome
  | failure
  | success (r : RawResult)
  deriving DecidableEq

/-- `ClassificationService.classifyWithLLM`: the `try` block normalizes the
parsed result, the `catch` returns the default record. -/
def classifyWithLLM : ClassifyOutcome → NarrativeClassification
  | .failure => getDefaultClassification
  | .success r => normalizeResult r

/-- `ClassificationService.classifyMemory` merely forwards (its own `catch`
returns the same default record). -/
def classifyMemory (o : ClassifyOutcome) : NarrativeClassification :=
  classifyWithLLM o

/-! ## Similarity (`ClassificationService.analyzeSimilarity`)

A JS number that may be `NaN` is `Option ℚ`, `none` being `NaN`;
`Math.min` and `Math.max` return `NaN` whenever an argument is `NaN`. -/

/-- A JS number, `none` = `NaN`. -/
abbrev JsNum := Option ℚ

/-- `Math.min` with NaN propagation. -/
def jsMin (a b : JsNum) : JsNum :=
  match a, b with
  | some x, some y => some (min x y)
  | _, _ => none

/-- `Math.max` with NaN propagation. -/
def jsMax (a b : JsNum) : JsNum :=
  match a, b with
  | some x, some y => some (max x y)
  | _, _ => none

/-- `clamp` over possibly-NaN numbers: `Math.max(lo, Math.min(hi, v))`. -/
def jsClamp (value lo hi : JsNum) : JsNum := jsMax lo (jsMin hi value)

/-- Leading decimal digits of a character list. -/
def spanDigits : List Char → List Char × List Char
  | [] => ([], [])
  | c :: cs =>
    if c.isDigit then
      let (ds, r) := spanDigits cs
      (c :: ds, r)
    else ([], c :: cs)

/-- Numeric value of a digit string. -/
def natOfDigits (ds : List Char) : Nat :=
  ds.foldl (fun n c => 10 * n + (c.toNat - 48)) 0

/-- Value of a fractional digit string. -/
def fracOfDigits (ds : List Char) : ℚ :=
  (natOfDigits ds : ℚ) / ((10 : ℚ) ^ ds.length)

/-- The mantissa of a JS float literal: `Digits [. Digits?] | . Digits`.
Returns the value and the unconsumed remainder, or `none` when no numeric
prefix exists. -/
def parseMantissa (cs : List Char) : Option (ℚ × List Char) :=
  let (ds, rest) := spanDigits cs
  match ds, rest with
  | [], '.' :: rest2 =>
    let (fs, rest3) := spanDigits rest2
    if fs.isEmpty then none else some (fracOfDigits fs, rest3)
  | [], _ => none
  | _, '.' :: rest2 =>
    let (fs, rest3) := spanDigits rest2
    some ((natOfDigits ds : ℚ) + fracOfDigits fs, rest3)
  | _, _ => some ((natOfDigits ds : ℚ), rest)

/-- An optional exponent part `e|E [+|-] Digits` following the mantissa;
an incomplete exponent contributes `0` (JS takes the longest valid prefix). -/
def parseExponent (cs : List Char) : Int :=
  match cs with
  | c :: rest =>
    if c = 'e' ∨ c = 'E' then
      let (sgn, rest2) : Int × List Char :=
        match rest with
        | '-' :: r => (-1, r)
        | '+' :: r => (1, r)
        | _ => (1, rest)
      let (ds, _) := spanDigits rest2
      if ds.isEmpty then 0 else sgn * (natOfDigits ds : Int)
    else 0
  | [] => 0

/-- `parseFloat`: skip leading whitespace, optional sign, longest decimal
literal prefix; `NaN` (`none`) when no numeric prefix exists.  The
`Infinity` literal is not modelled (immaterial to the claims, which turn on
finite and non-numeric responses). -/
def parseFloatQ (s : String) : JsNum :=
  let cs := s.toList.dropWhile
    (fun c => (c == ' ') || (c == '\t') || (c == '\n') || (c == '\r'))
  let (sign, cs2) : ℚ × List Char :=
    match cs with
    | '-' :: r => (-1, r)
    | '+' :: r => (1, r)
    | _ => (1, cs)
  match parseMantissa cs2 with
  | none => none
  | some (m, rest) => some (sign * m * (10 : ℚ) ^ parseExponent rest)

/-- Outcome of the completion call inside `analyzeSimilarity`: a transport
failure (the only thing the `catch` can see, since `parseFloat` never
throws) or the raw response text. -/
inductive SimilarityOutcome
  | failure
  | success (response : String)
  deriving DecidableEq

/-- `ClassificationService.analyzeSimilarity`:
`clamp(parseFloat(response), 0, 1)` on a response, `0` from the `catch` on
transport failure.  The result is a JS number that may be `NaN`. -/
def analyzeSimilarity (o : SimilarityOutcome) : JsNum :=
  match o with
  | .failure => some 0
  | .success response => jsClamp (parseFloatQ response) (some 0) (some 1)

/-! ## Prompt assembler (`PromptBuilder`)

`toLocaleDateString` and JS number-to-string conversion are locale- and
float-formatting concerns with no logic in the source; they are threaded
through as explicit function arguments (`localeDate`, `numToStr`). -/

/-- The `agent` block of `AgentPersonality` (memory.types.ts). -/
structure AgentId where
  id : String
  name : String
  description : String
  deriving DecidableEq

/-- The `communication` block of `AgentPersonality`. -/
structure Communication where
  style : String
  tone : String
  patterns : List String
  deriving DecidableEq

/-- `AgentPersonality`.  `formatPersonality` defends each block against an
absent value (`personality.agent?.name`, `personality.traits ? ... : ...`),
so the blocks are `Option`s; the trait map is an association list in
`Object.entries` (insertion) order. -/
structure AgentPersonality where
  agent : Option AgentId := none
  traits : Option (List (String × ℚ)) := none
  values : Option (List String) := none
  communication : Option Communication := none
  deriving DecidableEq

/-- `PromptTemplate` (memory.types.ts).  The source field names
`memory_prefix`, `memory_suffix`, `personality_prefix` and
`personality_suffix` are rendered here as `memory_pre`, `memory_suf`,
`personality_pre` and `personality_suf`. -/
structure PromptTemplate where
  system : String
  context : String
  memory_pre : String
  memory_suf : String
  personality_pre : String
  personality_suf : String
  deriving DecidableEq

/-- `DEFAULT_TEMPLATE` (promptBuilder.ts), with the template literals'
embedded newlines and indentation reproduced. -/
def DEFAULT_TEMPLATE : PromptTemplate :=
  { system := "You are an AI assistant with a persistent memory and personality. \n    1. NEVER greet the user if ANY previous interaction exists in Relevant Memories\n    2. ALWAYS check memories before responding\n    3. If memories contain ANY greeting, respond without new greeting\n    \n    Your Personality:\n    {personality}\n    \n    Current Context: \n    {context}"
    context := "CONVERSATION HISTORY:\n{context}"
    memory_pre := "\nRELEVANT MEMORIES:\n"
    memory_suf := "\nEND MEMORIES\n"
    personality_pre := "\nPERSONALITY TRAITS:\n"
    personality_suf := "" }

/-- Replace the first occurrence of `pat` in a character list (the
behaviour of `String.prototype.replace` with a string pattern). -/
def replaceFirstL : List Char → List Char → List Char → List Char
  | [], pat, repl => if strStartsWith [] pat then repl else []
  | c :: t, pat, repl =>
    if strStartsWith (c :: t) pat then repl ++ (c :: t).drop pat.length
    else c :: replaceFirstL t pat repl

/-- `s.replace(pat, repl)` for a string pattern (first occurrence only;
`$`-escapes in the replacement are not modelled). -/
def replaceFirst (s pat repl : String) : String :=
  ⟨replaceFirstL s.toList pat.toList repl.toList⟩

/-- `PromptBuilder.formatMemory`. -/
def formatMemory (localeDate numToStr : ℚ → String) (m : Memory) : String :=
  "- " ++ localeDate m.created_at ++ ": " ++ m.text ++
  " (Importance: " ++ numToStr m.importance ++
  ", Emotional: " ++ numToStr m.emotion_score ++ ")"

/-- `PromptBuilder.formatPersonality`, with the template literal's embedded
newlines and indentation reproduced. -/
def formatPersonality (numToStr : ℚ → String) (p : AgentPersonality) :
    String :=
  let name := strOr (p.agent.map AgentId.name) "undefined"
  let description := strOr (p.agent.map AgentId.description) "undefined"
  let traits := match p.traits with
    | some ts => String.intercalate "\n"
        (ts.map (fun tv => "- " ++ tv.1 ++ ": " ++ numToStr tv.2))
    | none => "No traits defined"
  let values := match p.values with
    | some vs => if vs.length > 0 then String.intercalate ", " vs
        else "No values defined"
    | none => "No values defined"
  let communication := match p.communication with
    | some c =>
      "- Style: " ++ strOr (some c.style) "undefined" ++
      "\n    - Tone: " ++ strOr (some c.tone) "undefined" ++
      "\n    - Patterns: " ++
        strOr (some (String.intercalate ", " c.patterns)) "undefined"
    | none => "- Style: undefined\n- Tone: undefined\n- Patterns: undefined"
  "Name: " ++ name ++
  "\n    Description: " ++ description ++
  "\n    Traits:\n    " ++ traits ++
  "\n    Values: " ++ values ++
  "\n    Communication:\n    " ++ communication

/-- The system segment:
`template.system.replace('{personality}', ...).replace('{context}', ...)`. -/
def systemMessage (t : PromptTemplate) (numToStr : ℚ → String)
    (personality : AgentPersonality) (context : String) : String :=
  replaceFirst
    (replaceFirst t.system "{personality}" (formatPersonality numToStr personality))
    "{context}" context

/-- The memory block of the context segment (empty when no memory
matched). -/
def memoriesText (t : PromptTemplate) (localeDate numToStr : ℚ → String)
    (relevantMemories : List Memory) : String :=
  if relevantMemories.length > 0 then
    t.memory_pre ++ "\n" ++
    String.intercalate "\n" (relevantMemories.map (formatMemory localeDate numToStr)) ++
    t.memory_suf
  else ""

/-- The personality block of the context segment (always appended). -/
def personalityText (t : PromptTemplate) (numToStr : ℚ → String)
    (personality : AgentPersonality) : String :=
  t.personality_pre ++ "\n" ++ formatPersonality numToStr personality ++
  t.personality_suf

/-- The context segment. -/
def contextMessage (t : PromptTemplate) (localeDate numToStr : ℚ → String)
    (relevantMemories : List Memory) (personality : AgentPersonality)
    (context : String) : String :=
  replaceFirst t.context "{context}" context ++
  memoriesText t localeDate numToStr relevantMemories ++
  personalityText t numToStr personality

/-- `PromptBuilder.buildPrompt`.  `relevantMemories` is what the abstract
`MemoryProvider.searchMemories(memoryParams)` resolved to, and
`personality` is either `memoryParams.personality` or what
`PersonalityProvider.getPersonality()` resolved to. -/
def buildPrompt (t : PromptTemplate) (localeDate numToStr : ℚ → String)
    (relevantMemories : List Memory) (personality : AgentPersonality)
    (userMessage context : String) : List String :=
  [systemMessage t numToStr personality context,
   contextMessage t localeDate numToStr relevantMemories personality context,
   userMessage]

/-! ## Concrete sample data for witnesses and counterexamples -/

/-- A minimal concrete memory record. -/
def mkMem (id : String) (imp emo : ℚ) : Memory :=
  { id := id
    text := ""
    glimpse_id := ""
    observation := ""
    conversation := ⟨[], []⟩
    context := ⟨"", "", "", ""⟩
    importance := imp
    emotion_score := emo
    linked_memories := []
    created_at := 0
    last_accessed := none }

/-- A create draft carrying out-of-range scores (importance `1.4`, emotion
`-5`), as in the spec's own scenario. -/
def draftA : MemoryDraft :=
  { text := "A"
    observation := none
    conversation := none
    context := ⟨"general", "", "", ""⟩
    importance := 14/10
    emotion_score := -5
    linked_memories := none
    last_accessed := none }

/-! ## Supporting lemmas -/

lemma getMem_map_preserve (f : Memory → Memory) (hf : ∀ m, (f m).id = m.id)
    (s : Store) (j : String) :
    getMem (s.map f) j = (getMem s j).map f := by
  induction s with
  | nil => rfl
  | cons x t ih =>
    by_cases h : x.id = j
    · simp [getMem, List.find?_cons, hf, h]
    · simp only [getMem, List.map_cons, List.find?_cons, hf x] at ih ⊢
      rw [show (x.id == j) = false by simp [h]]
      exact ih

lemma pushLink_id (m : Memory) (t : String) : (pushLink m t).id = m.id := by
  unfold pushLink; split <;> rfl

lemma mem_pushLink_self (m : Memory) (t : String) :
    t ∈ (pushLink m t).linked_memories := by
  unfold pushLink; split
  · assumption
  · simp

lemma mem_pushLink_of_mem {x : String} (m : Memory) (t : String)
    (hx : x ∈ m.linked_memories) : x ∈ (pushLink m t).linked_memories := by
  unfold pushLink; split
  · exact hx
  · simp [hx]

lemma mem_of_mem_pushLink {x : String} {m : Memory} {t : String}
    (hx : x ∈ (pushLink m t).linked_memories) :
    x ∈ m.linked_memories ∨ x = t := by
  unfold pushLink at hx
  split at hx
  · exact .inl hx
  · simpa using hx

lemma pushLink_of_mem {m : Memory} {t : String}
    (h : t ∈ m.linked_memories) : pushLink m t = m := by
  unfold pushLink; simp [h]

lemma nodup_pushLink {m : Memory} (t : String)
    (h : m.linked_memories.Nodup) :
    (pushLink m t).linked_memories.Nodup := by
  unfold pushLink
  split
  · exact h
  · next ht => simp [List.nodup_append, h, ht]

lemma getMem_id {s : Store} {id : String} {m : Memory}
    (h : getMem s id = some m) : m.id = id := by
  have := List.find?_some h
  simpa using this

lemma mem_of_getMem {s : Store} {id : String} {m : Memory}
    (h : getMem s id = some m) : m ∈ s :=
  List.mem_of_find?_eq_some h

lemma any_id_of_getMem {s : Store} {id : String} {m : Memory}
    (h : getMem s id = some m) : s.any (fun x => x.id == id) = true := by
  rw [List.any_eq_true]
  exact ⟨m, mem_of_getMem h, by simp [getMem_id h]⟩

lemma getMem_map_set {s : Store} {id : String}
    (hex : ∃ x ∈ s, x.id = id) (m' : Memory) (hid : m'.id = id) :
    getMem (s.map (fun x => if x.id == m'.id then m' else x)) id = some m' := by
  induction s with
  | nil => simp at hex
  | cons x t ih =>
    by_cases hx : x.id = id
    · simp [getMem, List.find?_cons, hid, hx]
    · have hex' : ∃ y ∈ t, y.id = id := by
        rcases hex with ⟨y, hy, hyid⟩
        rcases List.mem_cons.mp hy with rfl | hyt
        · exact absurd hyid hx
        · exact ⟨y, hyt, hyid⟩
      simp only [getMem] at ih ⊢
      rw [List.map_cons, List.find?_cons_of_neg _ (by simp [hid, hx])]
      exact ih hex'

lemma getMem_setMem {s : Store} {id : String} {m : Memory}
    (h : getMem s id = some m) (m' : Memory) (hid : m'.id = id) :
    getMem (setMem s m') id = some m' := by
  unfold setMem
  rw [hid, any_id_of_getMem h]
  simpa [hid] using
    getMem_map_set ⟨m, mem_of_getMem h, getMem_id h⟩ m' hid

lemma map_id_of_forall {α : Type} (l : List α) (f : α → α)
    (h : ∀ x ∈ l, f x = x) : l.map f = l := by
  induction l with
  | nil => rfl
  | cons a t ih =>
    simp only [List.map_cons, h a (List.mem_cons_self a t),
      ih (fun x hx => h x (List.mem_cons_of_mem a hx))]

lemma getMem_linkStep (s : Store) (i tid j : String) :
    getMem (linkStep s i tid) j =
      (getMem s j).map (fun m => if m.id = i then pushLink m tid else m) := by
  apply getMem_map_preserve
  intro m
  split
  · exact pushLink_id m tid
  · rfl

lemma mem_ifPush_of_mem {x : String} (y : Memory) (i t : String)
    (hx : x ∈ y.linked_memories) :
    x ∈ (if y.id = i then pushLink y t else y).linked_memories := by
  split
  · exact mem_pushLink_of_mem y t hx
  · exact hx

lemma ifPush_id (y : Memory) (i t : String) :
    (if y.id = i then pushLink y t else y).id = y.id := by
  split
  · exact pushLink_id y t
  · rfl

lemma nodup_ifPush (y : Memory) (i t : String)
    (h : y.linked_memories.Nodup) :
    (if y.id = i then pushLink y t else y).linked_memories.Nodup := by
  split
  · exact nodup_pushLink t h
  · exact h

lemma not_self_ifPush (z : Memory) (i t : String)
    (hz : z.id ∉ z.linked_memories) (hit : z.id = i → z.id ≠ t) :
    (if z.id = i then pushLink z t else z).id ∉
      (if z.id = i then pushLink z t else z).linked_memories := by
  split
  · next h =>
    rw [pushLink_id]
    intro hmem
    rcases mem_of_mem_pushLink hmem with h1 | h1
    · exact hz h1
    · exact hit h h1
  · exact hz

/-! ## Claim theorems -/

/-- C1 (counterexample): the store does not clamp at the point of write.
Creating a memory from a draft with importance `1.4` and emotion score `-5`
stores and returns both values as supplied, outside their domains. -/
theorem createMemory_stores_unclamped :
    (createMemory [] draftA "m1" "g1" 0).2.importance = 14/10 ∧
    ¬ (createMemory [] draftA "m1" "g1" 0).2.importance ≤ 1 ∧
    (getMem (createMemory [] draftA "m1" "g1" 0).1 "m1").map Memory.importance
      = some (14/10) ∧
    (createMemory [] draftA "m1" "g1" 0).2.emotion_score = -5 ∧
    ¬ -1 ≤ (createMemory [] draftA "m1" "g1" 0).2.emotion_score := by
  refine ⟨rfl, ?_, rfl, rfl, ?_⟩
  · show ¬ (14/10 : ℚ) ≤ 1
    norm_num
  · show ¬ (-1 : ℚ) ≤ -5
    norm_num

/-- C1 (amended): `createMemory` and `updateMemory` store the importance and
emotion score exactly as supplied, without clamping; range enforcement for
these fields happens only in the classification normalizer. -/
theorem storeWrites_passthrough (s : Store) (d : MemoryDraft)
    (gid gg : String) (now : ℚ) (id : String) (p : PartialMemory)
    (m : Memory) (v w : ℚ) (hm : getMem s id = some m)
    (hv : p.importance = some v) (hw : p.emotion_score = some w) :
    (createMemory s d gid gg now).2.importance = d.importance ∧
    (createMemory s d gid gg now).2.emotion_score = d.emotion_score ∧
    ∃ s2 m2, updateMemory s id p = .ok (s2, m2) ∧
      m2.importance = v ∧ m2.emotion_score = w := by
  refine ⟨rfl, rfl, setMem s (mergeMemory m p id), mergeMemory m p id, ?_, ?_, ?_⟩
  · unfold updateMemory
    rw [hm]
  · show p.importance.getD m.importance = v
    rw [hv]
    rfl
  · show p.emotion_score.getD m.emotion_score = w
    rw [hw]
    rfl

/-- Witness for `storeWrites_passthrough` at a concrete store, draft and
partial. -/
theorem storeWrites_passthrough_witness :
    getMem [mkMem "x" 0 0] "x" = some (mkMem "x" 0 0) ∧
    ({ importance := some 2, emotion_score := some (-3) } : PartialMemory).importance = some 2 ∧
    ({ importance := some 2, emotion_score := some (-3) } : PartialMemory).emotion_score = some (-3) ∧
    ((createMemory [mkMem "x" 0 0] draftA "m1" "g1" 0).2.importance = draftA.importance ∧
     (createMemory [mkMem "x" 0 0] draftA "m1" "g1" 0).2.emotion_score = draftA.emotion_score ∧
     ∃ s2 m2, updateMemory [mkMem "x" 0 0] "x"
         { importance := some 2, emotion_score := some (-3) } = .ok (s2, m2) ∧
       m2.importance = 2 ∧ m2.emotion_score = -3) :=
  ⟨rfl, rfl, rfl,
    storeWrites_passthrough [mkMem "x" 0 0] draftA "m1" "g1" 0 "x"
      { importance := some 2, emotion_score := some (-3) }
      (mkMem "x" 0 0) 2 (-3) rfl rfl rfl⟩

/-- C3: a successful `deleteMemory(a)` removes the node and removes `a`
from the link set of every surviving memory (cascade). -/
theorem deleteMemory_cascade (s : Store) (a : String) (m : Memory)
    (hm : getMem s a = some m) :
    ∃ s2, deleteMemory s a = .ok s2 ∧ ∀ b ∈ s2, a ∉ b.linked_memories := by
  refine ⟨(s.filter (fun x => x.id != a)).map (removeLinksTo a), ?_, ?_⟩
  · unfold deleteMemory
    rw [hm]
  · intro b hb
    rcases List.mem_map.mp hb with ⟨x, _, rfl⟩
    unfold removeLinksTo
    intro hmem
    simp at hmem

/-- Witness for `deleteMemory_cascade`: deleting "a" out of a two-node
store where "b" links to "a". -/
theorem deleteMemory_cascade_witness :
    getMem [mkMem "a" 0 0, { mkMem "b" 0 0 with linked_memories := ["a"] }] "a"
      = some (mkMem "a" 0 0) ∧
    ∃ s2, deleteMemory [mkMem "a" 0 0,
        { mkMem "b" 0 0 with linked_memories := ["a"] }] "a" = .ok s2 ∧
      ∀ b ∈ s2, "a" ∉ b.linked_memories :=
  ⟨rfl, deleteMemory_cascade _ "a" (mkMem "a" 0 0) rfl⟩

/-- C6: a successful `updateMemory(id, partial)` keeps `id`, `created_at`
and `glimpse_id` from the pre-update record — even when the partial sets
them — and merges every other field of the partial over the existing
record; the merged record is what the store then holds at `id`. -/
theorem updateMemory_immutable_fields (s : Store) (id : String)
    (p : PartialMemory) (m : Memory) (hm : getMem s id = some m) :
    ∃ s2 m2, updateMemory s id p = .ok (s2, m2) ∧
      getMem s2 id = some m2 ∧
      m2.id = m.id ∧ m2.created_at = m.created_at ∧
      m2.glimpse_id = m.glimpse_id ∧
      m2.text = p.text.getD m.text ∧
      m2.observation = p.observation.getD m.observation ∧
      m2.conversation = p.conversation.getD m.conversation ∧
      m2.context = p.context.getD m.context ∧
      m2.importance = p.importance.getD m.importance ∧
      m2.emotion_score = p.emotion_score.getD m.emotion_score ∧
      m2.linked_memories = p.linked_memories.getD m.linked_memories := by
  refine ⟨setMem s (mergeMemory m p id), mergeMemory m p id, ?_, ?_,
    ?_, rfl, rfl, rfl, rfl, rfl, rfl, rfl, rfl, rfl⟩
  · unfold updateMemory
    rw [hm]
  · exact getMem_setMem hm _ rfl
  · exact (getMem_id hm).symm

/-- Witness for `updateMemory_immutable_fields`: the partial sets all three
immutable fields. -/
theorem updateMemory_immutable_fields_witness :
    getMem [mkMem "x" 0 0] "x" = some (mkMem "x" 0 0) ∧
    ∃ s2 m2, updateMemory [mkMem "x" 0 0] "x"
        { id := some "evil", created_at := some 99, glimpse_id := some "zz" }
        = .ok (s2, m2) ∧
      getMem s2 "x" = some m2 ∧
      m2.id = (mkMem "x" 0 0).id ∧
      m2.created_at = (mkMem "x" 0 0).created_at ∧
      m2.glimpse_id = (mkMem "x" 0 0).glimpse_id ∧
      m2.text = (({ id := some "evil", created_at := some 99, glimpse_id := some "zz" } : PartialMemory).text.getD (mkMem "x" 0 0).text) ∧
      m2.observation = (({ id := some "evil", created_at := some 99, glimpse_id := some "zz" } : PartialMemory).observation.getD (mkMem "x" 0 0).observation) ∧
      m2.conversation = (({ id := some "evil", created_at := some 99, glimpse_id := some "zz" } : PartialMemory).conversation.getD (mkMem "x" 0 0).conversation) ∧
      m2.context = (({ id := some "evil", created_at := some 99, glimpse_id := some "zz" } : PartialMemory).context.getD (mkMem "x" 0 0).context) ∧
      m2.importance = (({ id := some "evil", created_at := some 99, glimpse_id := some "zz" } : PartialMemory).importance.getD (mkMem "x" 0 0).importance) ∧
      m2.emotion_score = (({ id := some "evil", created_at := some 99, glimpse_id := some "zz" } : PartialMemory).emotion_score.getD (mkMem "x" 0 0).emotion_score) ∧
      m2.linked_memories = (({ id := some "evil", created_at := some 99, glimpse_id := some "zz" } : PartialMemory).linked_memories.getD (mkMem "x" 0 0).linked_memories) :=
  ⟨rfl, updateMemory_immutable_fields [mkMem "x" 0 0] "x"
    { id := some "evil", created_at := some 99, glimpse_id := some "zz" }
    (mkMem "x" 0 0) rfl⟩

/-- C2: after a successful `linkMemories(a, b)` the link is present in both
directions, and calling `linkMemories(a, b)` again returns the very same
store (idempotence). -/
theorem linkMemories_symmetric_idempotent (s : Store) (a b : String)
    (ma mb : Memory) (ha : getMem s a = some ma) (hb : getMem s b = some mb) :
    ∃ s2, linkMemories s a b = .ok s2 ∧
      (∃ ma2, getMem s2 a = some ma2 ∧ b ∈ ma2.linked_memories) ∧
      (∃ mb2, getMem s2 b = some mb2 ∧ a ∈ mb2.linked_memories) ∧
      linkMemories s2 a b = .ok s2 := by
  have hmaid := getMem_id ha
  have hmbid := getMem_id hb
  have key : ∀ j (mj : Memory), getMem s j = some mj →
      getMem (linkStep (linkStep s a b) b a) j =
        some (if (if mj.id = a then pushLink mj b else mj).id = b
              then pushLink (if mj.id = a then pushLink mj b else mj) a
              else if mj.id = a then pushLink mj b else mj) := by
    intro j mj hj
    rw [getMem_linkStep, getMem_linkStep, hj]
    rfl
  have hga := key a ma ha
  have hgb := key b mb hb
  refine ⟨linkStep (linkStep s a b) b a, ?_, ?_, ?_, ?_⟩
  · unfold linkMemories
    rw [ha, hb]
  · refine ⟨_, hga, ?_⟩
    simp only [if_pos hmaid]
    exact mem_ifPush_of_mem (pushLink ma b) b a (mem_pushLink_self ma b)
  · refine ⟨_, hgb, ?_⟩
    have hid1 : (if mb.id = a then pushLink mb b else mb).id = b := by
      rw [ifPush_id]
      exact hmbid
    rw [if_pos hid1]
    exact mem_pushLink_self _ a
  · have F1 : ∀ m ∈ linkStep (linkStep s a b) b a,
        m.id = a → b ∈ m.linked_memories := by
      intro m hm hid
      rcases List.mem_map.mp hm with ⟨x, hx, rfl⟩
      rcases List.mem_map.mp hx with ⟨y, _, rfl⟩
      have hyid : y.id = a := by
        rw [ifPush_id, ifPush_id] at hid
        exact hid
      refine mem_ifPush_of_mem _ b a ?_
      rw [if_pos hyid]
      exact mem_pushLink_self y b
    have F2 : ∀ m ∈ linkStep (linkStep s a b) b a,
        m.id = b → a ∈ m.linked_memories := by
      intro m hm hid
      rcases List.mem_map.mp hm with ⟨x, hx, rfl⟩
      rcases List.mem_map.mp hx with ⟨y, _, rfl⟩
      have hxid : (if y.id = a then pushLink y b else y).id = b := by
        rw [ifPush_id]
        rw [ifPush_id, ifPush_id] at hid
        exact hid
      rw [if_pos hxid]
      exact mem_pushLink_self _ a
    have hstep1 : linkStep (linkStep (linkStep s a b) b a) a b
        = linkStep (linkStep s a b) b a := by
      refine map_id_of_forall _ _ ?_
      intro m hm
      split
      · next h => exact pushLink_of_mem (F1 m hm h)
      · rfl
    have hstep2 : linkStep (linkStep (linkStep s a b) b a) b a
        = linkStep (linkStep s a b) b a := by
      refine map_id_of_forall _ _ ?_
      intro m hm
      split
      · next h => exact pushLink_of_mem (F2 m hm h)
      · rfl
    unfold linkMemories
    rw [hga, hgb, hstep1, hstep2]

/-- Witness for `linkMemories_symmetric_idempotent` on a concrete two-node
store. -/
theorem linkMemories_symmetric_idempotent_witness :
    getMem [mkMem "a" 0 0, mkMem "b" 0 0] "a" = some (mkMem "a" 0 0) ∧
    getMem [mkMem "a" 0 0, mkMem "b" 0 0] "b" = some (mkMem "b" 0 0) ∧
    ∃ s2, linkMemories [mkMem "a" 0 0, mkMem "b" 0 0] "a" "b" = .ok s2 ∧
      (∃ ma2, getMem s2 "a" = some ma2 ∧ "b" ∈ ma2.linked_memories) ∧
      (∃ mb2, getMem s2 "b" = some mb2 ∧ "a" ∈ mb2.linked_memories) ∧
      linkMemories s2 "a" "b" = .ok s2 :=
  ⟨rfl, rfl, linkMemories_symmetric_idempotent _ "a" "b" _ _ rfl rfl⟩

/-- C9 (counterexample): `linkMemories(a, a)` creates a self-link — the
single memory "a" ends up with its own id in its linked set. -/
theorem linkMemories_self_link :
    linkMemories [mkMem "a" 0 0] "a" "a" =
      .ok [{ mkMem "a" 0 0 with linked_memories := ["a"] }] ∧
    ({ mkMem "a" 0 0 with linked_memories := ["a"] } : Memory).id ∈
      ({ mkMem "a" 0 0 with linked_memories := ["a"] } : Memory).linked_memories := by
  refine ⟨rfl, ?_⟩
  simp [mkMem]

/-- C9 (amended): `linkMemories` preserves freedom from duplicates for every
pair of arguments, and preserves freedom from self-links whenever the two
arguments are distinct; `linkMemories(a, a)` itself introduces a (single)
self-link, and `createMemory`/`updateMemory` store caller-supplied link
lists as-is. -/
theorem linkMemories_link_integrity (s s2 : Store) (a b : String)
    (hok : linkMemories s a b = .ok s2)
    (hnd : ∀ m ∈ s, m.linked_memories.Nodup) :
    (∀ m ∈ s2, m.linked_memories.Nodup) ∧
    (a ≠ b → (∀ m ∈ s, m.id ∉ m.linked_memories) →
      ∀ m ∈ s2, m.id ∉ m.linked_memories) := by
  unfold linkMemories at hok
  cases hga : getMem s a with
  | none => rw [hga] at hok; simp at hok
  | some ma =>
    cases hgb : getMem s b with
    | none => rw [hga, hgb] at hok; simp at hok
    | some mb =>
      rw [hga, hgb] at hok
      simp only [Except.ok.injEq] at hok
      subst hok
      constructor
      · intro m hm
        rcases List.mem_map.mp hm with ⟨x, hx, rfl⟩
        rcases List.mem_map.mp hx with ⟨y, hy, rfl⟩
        exact nodup_ifPush _ b a (nodup_ifPush _ a b (hnd y hy))
      · intro hne hself m hm
        rcases List.mem_map.mp hm with ⟨x, hx, rfl⟩
        rcases List.mem_map.mp hx with ⟨y, hy, rfl⟩
        refine not_self_ifPush _ b a ?_ ?_
        · exact not_self_ifPush y a b (hself y hy)
            (fun h1 h2 => hne (h1 ▸ h2 ▸ rfl))
        · rw [ifPush_id]
          intro h1 h2
          exact hne (h2 ▸ h1 ▸ rfl)

/-- Witness for `linkMemories_link_integrity` on a concrete two-node
store. -/
theorem linkMemories_link_integrity_witness :
    linkMemories [mkMem "a" 0 0, mkMem "b" 0 0] "a" "b" =
      .ok [{ mkMem "a" 0 0 with linked_memories := ["b"] },
           { mkMem "b" 0 0 with linked_memories := ["a"] }] ∧
    (∀ m ∈ [mkMem "a" 0 0, mkMem "b" 0 0], m.linked_memories.Nodup) ∧
    ((∀ m ∈ [{ mkMem "a" 0 0 with linked_memories := ["b"] },
              { mkMem "b" 0 0 with linked_memories := ["a"] }],
        m.linked_memories.Nodup) ∧
     ("a" ≠ "b" →
       (∀ m ∈ [mkMem "a" 0 0, mkMem "b" 0 0], m.id ∉ m.linked_memories) →
       ∀ m ∈ [{ mkMem "a" 0 0 with linked_memories := ["b"] },
              { mkMem "b" 0 0 with linked_memories := ["a"] }],
         m.id ∉ m.linked_memories)) :=
  ⟨rfl, by simp [mkMem],
    linkMemories_link_integrity _ _ "a" "b" rfl (by simp [mkMem])⟩

/-- C4: every classification the service returns has importance in [0,1]
and emotion score in [-1,1], whatever the parsed numeric fields were; an
absent or falsy (zero) importance defaults to 0.5 and an absent or falsy
emotion score defaults to 0 before clamping. -/
theorem classifyMemory_bounds (o : ClassifyOutcome) (r : RawResult) :
    (0 ≤ (classifyMemory o).importance ∧ (classifyMemory o).importance ≤ 1 ∧
     -1 ≤ (classifyMemory o).emotion_score ∧
     (classifyMemory o).emotion_score ≤ 1) ∧
    (classifyMemory (.success { r with importance := none })).importance = 1/2 ∧
    (classifyMemory (.success { r with importance := some 0 })).importance = 1/2 ∧
    (classifyMemory (.success { r with emotion_score := none })).emotion_score = 0 ∧
    (classifyMemory (.success { r with emotion_score := some 0 })).emotion_score = 0 := by
  refine ⟨?_, ?_, ?_, ?_, ?_⟩
  · cases o with
    | failure =>
      refine ⟨by norm_num [classifyMemory, classifyWithLLM, getDefaultClassification],
        by norm_num [classifyMemory, classifyWithLLM, getDefaultClassification],
        by norm_num [classifyMemory, classifyWithLLM, getDefaultClassification],
        by norm_num [classifyMemory, classifyWithLLM, getDefaultClassification]⟩
    | success r' =>
      refine ⟨le_max_left _ _, ?_, le_max_left _ _, ?_⟩
      · exact max_le (by norm_num) (min_le_left _ _)
      · exact max_le (by norm_num) (min_le_left _ _)
  · show clamp (numOr none (1/2)) 0 1 = 1/2
    norm_num [clamp, numOr]
  · show clamp (numOr (some 0) (1/2)) 0 1 = 1/2
    norm_num [clamp, numOr]
  · show clamp (numOr none 0) (-1) 1 = 0
    norm_num [clamp, numOr]
  · show clamp (numOr (some 0) 0) (-1) 1 = 0
    norm_num [clamp, numOr]

/-- C7: when the completion response is unparseable (or field access
throws), `classifyMemory` returns exactly the fixed default record: empty
observation, importance 0.5, emotion score 0, focus area "general",
interaction type "general", empty suggested links. -/
theorem classifyMemory_parse_failure_default :
    classifyMemory .failure = getDefaultClassification ∧
    getDefaultClassification.observation = "" ∧
    getDefaultClassification.importance = 1/2 ∧
    getDefaultClassification.emotion_score = 0 ∧
    getDefaultClassification.focus_area = "general" ∧
    getDefaultClassification.interaction_type = "general" ∧
    getDefaultClassification.suggested_links = [] :=
  ⟨rfl, rfl, rfl, rfl, rfl, rfl, rfl⟩

/-- C8 (counterexample): on the non-numeric response "hello",
`parseFloat` yields `NaN` (modelled `none`), which propagates through the
clamp — `analyzeSimilarity` returns `NaN`, not 0 and not a number in
[0,1]. -/
theorem analyzeSimilarity_nan_on_non_numeric :
    analyzeSimilarity (.success "hello") = none ∧
    analyzeSimilarity (.success "hello") ≠ some 0 := by
  refine ⟨rfl, ?_⟩
  intro h
  rw [show analyzeSimilarity (.success "hello") = none from rfl] at h
  exact Option.noConfusion h

/-- C8 (amended): `analyzeSimilarity` returns exactly 0 on transport
failure and a number in [0,1] whenever the response parses to a number;
on a non-numeric response `parseFloat` yields `NaN`, which propagates
through the clamp and is returned instead of 0. -/
theorem analyzeSimilarity_spec (resp respBad : String) (v : ℚ)
    (hv : parseFloatQ resp = some v) (hbad : parseFloatQ respBad = none) :
    analyzeSimilarity .failure = some 0 ∧
    (∃ u, analyzeSimilarity (.success resp) = some u ∧ 0 ≤ u ∧ u ≤ 1) ∧
    analyzeSimilarity (.success respBad) = none := by
  refine ⟨rfl, ⟨max 0 (min 1 v), ?_, le_max_left _ _,
    max_le (by norm_num) (min_le_left _ _)⟩, ?_⟩
  · show jsClamp (parseFloatQ resp) (some 0) (some 1) = _
    rw [hv]
    rfl
  · show jsClamp (parseFloatQ respBad) (some 0) (some 1) = none
    rw [hbad]
    rfl

lemma parseFloatQ_one : parseFloatQ "1" = some 1 := by
  have h : parseFloatQ "1" =
      some ((1 : ℚ) * ((natOfDigits ['1'] : ℚ)) *
        (10 : ℚ) ^ (parseExponent [])) := rfl
  have h2 : natOfDigits ['1'] = 1 := by decide
  have h3 : parseExponent ([] : List Char) = 0 := rfl
  rw [h, h2, h3]
  norm_num

/-- Witness for `analyzeSimilarity_spec` at the concrete responses "1"
and "hello". -/
theorem analyzeSimilarity_spec_witness :
    parseFloatQ "1" = some 1 ∧ parseFloatQ "hello" = none ∧
    (analyzeSimilarity .failure = some 0 ∧
     (∃ u, analyzeSimilarity (.success "1") = some u ∧ 0 ≤ u ∧ u ≤ 1) ∧
     analyzeSimilarity (.success "hello") = none) :=
  ⟨parseFloatQ_one, rfl, analyzeSimilarity_spec "1" "hello" 1 parseFloatQ_one rfl⟩

/-- C10: `buildPrompt` always returns exactly three segments, in the order
[system, context, user], and the third is the input `userMessage`
unchanged. -/
theorem buildPrompt_shape (t : PromptTemplate) (localeDate numToStr : ℚ → String)
    (relevantMemories : List Memory) (personality : AgentPersonality)
    (userMessage context : String) :
    (buildPrompt t localeDate numToStr relevantMemories personality
        userMessage context).length = 3 ∧
    buildPrompt t localeDate numToStr relevantMemories personality
        userMessage context =
      [systemMessage t numToStr personality context,
       contextMessage t localeDate numToStr relevantMemories personality context,
       userMessage] :=
  ⟨rfl, rfl⟩

/-! ## Search lemmas (claim C5) -/

lemma mem_of_queryStage {m : Memory} {o : Option String} {l : List Memory}
    (h : m ∈ queryStage o l) : m ∈ l := by
  cases o with
  | none => exact h
  | some q =>
    simp only [queryStage] at h
    by_cases hq : q = ""
    · rw [if_pos hq] at h
      exact h
    · rw [if_neg hq] at h
      exact (List.mem_filter.mp h).1

lemma mem_of_floorStage {m : Memory} {o : Option ℚ} {f : Memory → ℚ}
    {l : List Memory} (h : m ∈ floorStage o f l) : m ∈ l := by
  cases o with
  | none => exact h
  | some t =>
    simp only [floorStage] at h
    exact (List.mem_filter.mp h).1

lemma mem_of_focusStage {m : Memory} {o : Option String} {l : List Memory}
    (h : m ∈ focusStage o l) : m ∈ l := by
  cases o with
  | none => exact h
  | some f =>
    simp only [focusStage] at h
    by_cases hf : f = ""
    · rw [if_pos hf] at h
      exact h
    · rw [if_neg hf] at h
      exact (List.mem_filter.mp h).1

lemma mem_of_fromStage {m : Memory} {o : Option ℚ} {l : List Memory}
    (h : m ∈ fromStage o l) : m ∈ l := by
  cases o with
  | none => exact h
  | some d =>
    simp only [fromStage] at h
    by_cases hd : d = 0
    · rw [if_pos hd] at h
      exact h
    · rw [if_neg hd] at h
      exact (List.mem_filter.mp h).1

lemma mem_of_toStage {m : Memory} {o : Option ℚ} {l : List Memory}
    (h : m ∈ toStage o l) : m ∈ l := by
  cases o with
  | none => exact h
  | some d =>
    simp only [toStage] at h
    by_cases hd : d = 0
    · rw [if_pos hd] at h
      exact h
    · rw [if_neg hd] at h
      exact (List.mem_filter.mp h).1

lemma floor_of_mem_floorStage {m : Memory} {t : ℚ} {f : Memory → ℚ}
    {l : List Memory} (h : m ∈ floorStage (some t) f l) : t ≤ f m := by
  unfold floorStage at h
  exact of_decide_eq_true (List.mem_filter.mp h).2

lemma importance_of_mem_applyFilters {m : Memory} {store : List Memory}
    {p : MemorySearchParams} {t : ℚ} (ht : p.importance_threshold = some t)
    (h : m ∈ applyFilters store p) : t ≤ m.importance := by
  unfold applyFilters at h
  have h4 := mem_of_floorStage (mem_of_focusStage
    (mem_of_fromStage (mem_of_toStage h)))
  rw [ht] at h4
  exact floor_of_mem_floorStage h4

lemma filter_orderedInsert (v : ℚ) (a : Memory) (l : List Memory) :
    (List.orderedInsert impGe a l).filter (fun m => decide (m.importance = v)) =
      if a.importance = v then
        a :: l.filter (fun m => decide (m.importance = v))
      else l.filter (fun m => decide (m.importance = v)) := by
  induction l with
  | nil =>
    by_cases h : a.importance = v <;>
      simp [List.orderedInsert, List.filter, h]
  | cons b t ih =>
    by_cases hab : impGe a b
    · by_cases h : a.importance = v <;>
        simp [List.orderedInsert, hab, List.filter_cons, h]
    · have hlt : a.importance < b.importance := by
        unfold impGe at hab
        exact lt_of_not_le hab
      by_cases h : a.importance = v
      · have hb : ¬ (b.importance = v) := by
          rw [← h]
          exact ne_of_gt hlt
        simp [List.orderedInsert, hab, List.filter_cons, hb, ih, h]
      · simp [List.orderedInsert, hab, List.filter_cons, ih, h]

lemma filter_sortByImportanceDesc (v : ℚ) (l : List Memory) :
    (sortByImportanceDesc l).filter (fun m => decide (m.importance = v)) =
      l.filter (fun m => decide (m.importance = v)) := by
  induction l with
  | nil => rfl
  | cons a t ih =>
    unfold sortByImportanceDesc at ih ⊢
    simp only [List.insertionSort]
    rw [filter_orderedInsert, ih]
    by_cases h : a.importance = v <;> simp [List.filter_cons, h]

/-- C5 (amended, for a nonzero limit): with importance threshold `t` and
limit `n ≠ 0` supplied, `searchMemories` returns at most `n` records, each
with importance ≥ `t`, sorted non-increasing by importance, and equal to
the `n`-prefix of a stable descending reordering of the filtered
collection (per-importance-value subsequences keep their prior relative
order). -/
theorem searchMemories_spec (store : List Memory) (p : MemorySearchParams)
    (t : ℚ) (n : Nat) (ht : p.importance_threshold = some t)
    (hn : p.limit = some n) (hn0 : n ≠ 0) :
    (searchMemories store p).length ≤ n ∧
    (∀ m ∈ searchMemories store p, t ≤ m.importance) ∧
    (searchMemories store p).Sorted impGe ∧
    ∃ full, List.Sorted impGe full ∧
      (∀ v : ℚ, List.filter (fun m => decide (m.importance = v)) full =
        (applyFilters store p).filter (fun m => decide (m.importance = v))) ∧
      searchMemories store p = List.take n full := by
  have hs : searchMemories store p =
      (sortByImportanceDesc (applyFilters store p)).take n := by
    unfold searchMemories
    rw [hn]
    simp [hn0]
  refine ⟨?_, ?_, ?_, sortByImportanceDesc (applyFilters store p),
    ?_, ?_, hs⟩
  · rw [hs]
    exact List.length_take_le n _
  · intro m hm
    rw [hs] at hm
    have hm2 : m ∈ sortByImportanceDesc (applyFilters store p) :=
      (List.take_sublist _ _).subset hm
    have hm3 : m ∈ applyFilters store p :=
      (List.mem_insertionSort impGe).mp hm2
    exact importance_of_mem_applyFilters ht hm3
  · rw [hs]
    exact List.Pairwise.sublist (List.take_sublist _ _)
      (List.sorted_insertionSort impGe _)
  · exact List.sorted_insertionSort impGe _
  · intro v
    exact filter_sortByImportanceDesc v _

/-- Witness for `searchMemories_spec` on a concrete two-record store with
threshold 0 and limit 1. -/
theorem searchMemories_spec_witness :
    ({ importance_threshold := some 0, limit := some 1 } :
        MemorySearchParams).importance_threshold = some 0 ∧
    ({ importance_threshold := some 0, limit := some 1 } :
        MemorySearchParams).limit = some 1 ∧
    (1 : Nat) ≠ 0 ∧
    ((searchMemories [mkMem "a" 1 0, mkMem "b" 0 0]
        { importance_threshold := some 0, limit := some 1 }).length ≤ 1 ∧
     (∀ m ∈ searchMemories [mkMem "a" 1 0, mkMem "b" 0 0]
        { importance_threshold := some 0, limit := some 1 },
        (0 : ℚ) ≤ m.importance) ∧
     (searchMemories [mkMem "a" 1 0, mkMem "b" 0 0]
        { importance_threshold := some 0, limit := some 1 }).Sorted impGe ∧
     ∃ full, List.Sorted impGe full ∧
       (∀ v : ℚ, List.filter (fun m => decide (m.importance = v)) full =
         (applyFilters [mkMem "a" 1 0, mkMem "b" 0 0]
           { importance_threshold := some 0, limit := some 1 }).filter
             (fun m => decide (m.importance = v))) ∧
       searchMemories [mkMem "a" 1 0, mkMem "b" 0 0]
         { importance_threshold := some 0, limit := some 1 } = List.take 1 full) :=
  ⟨rfl, rfl, by decide,
    searchMemories_spec [mkMem "a" 1 0, mkMem "b" 0 0]
      { importance_threshold := some 0, limit := some 1 } 0 1 rfl rfl
      (by decide)⟩

/-- C5 (counterexample): a supplied limit of `0` is falsy in
`if (params.limit)`, so no truncation happens — the result's length
exceeds the supplied limit. -/
theorem searchMemories_limit_zero :
    searchMemories [mkMem "a" 1 0]
      { importance_threshold := some 0, limit := some 0 } = [mkMem "a" 1 0] ∧
    ¬ (searchMemories [mkMem "a" 1 0]
      { importance_threshold := some 0, limit := some 0 }).length ≤ 0 := by
  refine ⟨rfl, ?_⟩
  rw [show searchMemories [mkMem "a" 1 0]
    { importance_threshold := some 0, limit := some 0 } = [mkMem "a" 1 0]
    from rfl]
  simp

end Mindsculpt
